import Mathlib

/-!
Verification of the Bilibili_Math acquisition-and-enrichment pipeline.

Shallow embedding of the Python sources:
  * `src/core/topic_classifier.py`  — keyword rule classifier
  * `src/core/quality_scorer.py`    — multi-factor quality scorer
  * `src/core/recommend_engine.py`  — strategy-driven recommendation engine
  * `src/spider/bilibili_api.py`    — signed client and crawl orchestrator
  * `src/spider/utils.py`           — parsing helpers

Text is modelled as a list of Unicode codepoints (`Str := List Nat`);
Python machine integers are `Nat`/`Int`; Python floats are modelled as
exact rationals `ℚ`; fallible values are `Option`.
-/

namespace BilibiliMath

/-- Text is a list of Unicode codepoints. -/
abbrev Str := List Nat

/-- Bridge from Lean string literals to codepoint lists (used only to
write the concrete Chinese/ASCII keyword tables of the source). -/
def str (s : String) : Str := s.toList.map Char.toNat

/-- Python `str.lower` restricted to its action on the characters that
occur in this code base (ASCII letters; CJK codepoints are fixed). -/
def pyLower (c : Nat) : Nat := if 65 ≤ c ∧ c ≤ 90 then c + 32 else c

/-- Lowercase a whole text, as Python `s.lower()` does. -/
def lowerStr (s : Str) : Str := s.map pyLower

/-- The whitespace class of Python `re`'s `\s` (ASCII part). -/
def isPySpace (c : Nat) : Bool := c ∈ [32, 9, 10, 13, 11, 12]

/-- Python substring test `needle in hay` on strings: true iff `needle`
occurs contiguously in `hay` (the empty needle occurs in everything). -/
def containsSub (needle : Str) : Str → Bool
  | [] => needle.isPrefixOf []
  | c :: rest => needle.isPrefixOf (c :: rest) || containsSub needle rest

/-- A single ASCII space, used where the source interpolates `f"{a} {b}"`. -/
def sp : Str := [32]

/-! ## TopicClassifier (src/core/topic_classifier.py) -/

/-- `TOPICS` — the fixed ordered catalog of topics. -/
def TOPICS : List Str :=
  [str "极限与连续", str "导数与微分", str "积分", str "微分方程", str "级数",
   str "多元函数",
   str "行列式", str "矩阵", str "向量", str "线性方程组", str "特征值",
   str "概率基础", str "随机变量", str "数理统计",
   str "考研相关", str "竞赛", str "直观"]

/-- `DIFFICULTY_LEVELS`. -/
def DIFFICULTY_LEVELS : List Str := [str "入门", str "进阶", str "高阶"]

/-- `TOPIC_KEYWORDS` — keyword rule table, in source order. -/
def TOPIC_KEYWORDS : List (Str × List Str) :=
  [(str "极限与连续", [str "极限", str "连续", str "无穷小", str "无穷大", str "夹逼", str "洛必达", str "等价无穷小"]),
   (str "导数与微分", [str "导数", str "微分", str "求导", str "链式法则", str "隐函数", str "参数方程导数", str "高阶导数"]),
   (str "积分", [str "积分", str "定积分", str "不定积分", str "换元", str "分部积分", str "变限积分", str "广义积分"]),
   (str "微分方程", [str "微分方程", str "一阶", str "二阶", str "常微分", str "偏微分", str "通解", str "特解"]),
   (str "级数", [str "级数", str "幂级数", str "泰勒", str "麦克劳林", str "傅里叶", str "收敛", str "发散"]),
   (str "多元函数", [str "多元函数", str "偏导", str "全微分", str "重积分", str "二重积分", str "三重积分", str "曲线积分", str "曲面积分"]),
   (str "行列式", [str "行列式", str "克拉默", str "代数余子式"]),
   (str "矩阵", [str "矩阵", str "逆矩阵", str "伴随矩阵", str "矩阵乘法", str "初等变换"]),
   (str "向量", [str "向量", str "向量空间", str "线性相关", str "线性无关", str "基", str "维数", str "正交"]),
   (str "线性方程组", [str "线性方程组", str "齐次", str "非齐次", str "解的结构", str "基础解系"]),
   (str "特征值", [str "特征值", str "特征向量", str "相似", str "对角化", str "二次型"]),
   (str "概率基础", [str "概率", str "古典概型", str "条件概率", str "全概率", str "贝叶斯"]),
   (str "随机变量", [str "随机变量", str "分布", str "期望", str "方差", str "协方差", str "二维分布"]),
   (str "数理统计", [str "统计", str "估计", str "假设检验", str "置信区间", str "回归"]),
   (str "考研相关", [str "考研", str "真题", str "刷题", str "数一", str "数二", str "数三", str "历年"]),
   (str "竞赛", [str "竞赛", str "数学竞赛", str "建模"]),
   (str "直观", [str "本质", str "直观", str "可视化", str "3Blue1Brown", str "科普", str "通俗"])]

/-- `TOPIC_KEYWORDS.get(topic, [])`. -/
def topicKeywordsOf (topic : Str) : List Str :=
  match TOPIC_KEYWORDS.find? (fun p => p.1 = topic) with
  | some p => p.2
  | none => []

/-- `DIFFICULTY_KEYWORDS`. -/
def DIFFICULTY_KEYWORDS : List (Str × List Str) :=
  [(str "入门", [str "入门", str "基础", str "零基础", str "小白", str "初学", str "通俗", str "简单", str "快速入门", str "从零开始"]),
   (str "进阶", [str "进阶", str "提高", str "强化", str "深入", str "考研", str "详解", str "技巧"]),
   (str "高阶", [str "高阶", str "难题", str "拔高", str "竞赛", str "证明", str "深度", str "数学家"])]

/-- `DIFFICULTY_KEYWORDS.get(difficulty, [])`. -/
def difficultyKeywordsOf (difficulty : Str) : List Str :=
  match DIFFICULTY_KEYWORDS.find? (fun p => p.1 = difficulty) with
  | some p => p.2
  | none => []

/-- `NON_MATH_CONTEXT` — blocklist of off-domain terms. -/
def NON_MATH_CONTEXT : List Str :=
  [str "游戏", str "MC", str "Minecraft", str "我的世界", str "收容", str "模组", str "挑战",
   str "极限模式", str "生存模式", str "创造模式", str "生存挑战",
   str "原神", str "王者荣耀", str "英雄联盟", str "LOL", str "吃鸡", str "PUBG",
   str "steam", str "主播", str "直播", str "游戏解说", str "实况", str "通关",
   str "vlog", str "日常", str "开箱", str "装修", str "改装", str "汽车", str "跑车", str "超跑",
   str "黑洞", str "火箭", str "航天", str "飞机",
   str "鬼畜", str "搞笑", str "恶搞", str "整蛊", str "整活",
   str "移除陆地", str "一格物品栏", str "加速100"]

/-- `CALCULUS_TOPICS`. -/
def CALCULUS_TOPICS : List Str :=
  [str "极限与连续", str "导数与微分", str "积分", str "微分方程", str "级数", str "多元函数"]

/-- `LINEAR_ALGEBRA_TOPICS`. -/
def LINEAR_ALGEBRA_TOPICS : List Str :=
  [str "行列式", str "矩阵", str "向量", str "线性方程组", str "特征值"]

/-- `PROBABILITY_TOPICS`. -/
def PROBABILITY_TOPICS : List Str :=
  [str "概率基础", str "随机变量", str "数理统计"]

/-- `LECTURER_KEYWORDS` (dict order preserved). -/
def LECTURER_KEYWORDS : List (Str × List Str) :=
  [(str "高等数学", [str "宋浩", str "张宇", str "汤家凤"]),
   (str "线性代数", [str "李永乐", str "武忠祥"]),
   (str "概率论与数理统计", [str "宋浩"])]

/-- `TopicClassifier._normalize_text`: lowercase, then delete all
whitespace (`re.sub(r"\s+", "", value)`). -/
def normalize_text (value : Str) : Str :=
  (lowerStr value).filter (fun c => !isPySpace c)

/-- `TopicClassifier._is_non_math_content`: scans the lowercase of
`f"{title} {tags}"` (the description is NOT included) for any blocklist
entry. -/
def is_non_math_content (title tags : Str) : Bool :=
  let text := lowerStr (title ++ sp ++ tags)
  NON_MATH_CONTEXT.any (fun keyword => containsSub (lowerStr keyword) text)

/-- `TopicClassifier._classify_topics`. -/
def classify_topics (normalizedText : Str) : List Str :=
  TOPICS.filter (fun topic =>
    (topicKeywordsOf topic).any (fun kw =>
      !kw.isEmpty && containsSub (normalize_text kw) normalizedText))

/-- `TopicClassifier._classify_difficulty`: first matching level, else
the default `进阶`. -/
def classify_difficulty (normalizedText : Str) : Str :=
  match DIFFICULTY_LEVELS.find? (fun difficulty =>
      (difficultyKeywordsOf difficulty).any (fun kw =>
        !kw.isEmpty && containsSub (normalize_text kw) normalizedText)) with
  | some difficulty => difficulty
  | none => str "进阶"

/-- `TopicClassifier.classify`. -/
def classify (title tags desc : Str) : List Str × Str :=
  let normalizedText := normalize_text (title ++ sp ++ tags ++ sp ++ desc)
  (classify_topics normalizedText, classify_difficulty normalizedText)

/-- `TopicClassifier._detect_lecturer_subject`. -/
def detect_lecturer_subject (title tags desc : Str) : Option Str :=
  let normalizedText := normalize_text (title ++ sp ++ tags ++ sp ++ desc)
  match LECTURER_KEYWORDS.find? (fun p =>
      p.2.any (fun lecturer => containsSub (normalize_text lecturer) normalizedText)) with
  | some p => some p.1
  | none => none

/-- `TopicClassifier._infer_subject`. -/
def infer_subject (topics : List Str) (title tags desc : Str) : Option Str :=
  if topics.isEmpty then detect_lecturer_subject title tags desc
  else
    let calculusCount := (topics.filter (fun t => t ∈ CALCULUS_TOPICS)).length
    let linearCount := (topics.filter (fun t => t ∈ LINEAR_ALGEBRA_TOPICS)).length
    let probCount := (topics.filter (fun t => t ∈ PROBABILITY_TOPICS)).length
    let scores : List (Str × Nat) :=
      [(str "高等数学", calculusCount), (str "线性代数", linearCount),
       (str "概率论与数理统计", probCount)]
    let maxScore := max calculusCount (max linearCount probCount)
    if 0 < maxScore then
      match scores.find? (fun p => p.2 = maxScore) with
      | some p => some p.1
      | none => detect_lecturer_subject title tags desc
    else detect_lecturer_subject title tags desc

/-- `TopicClassifier.classify_with_subject`: negative filter first, then
topic/difficulty classification and subject inference. -/
def classify_with_subject (title tags desc : Str) : List Str × Str × Option Str :=
  if is_non_math_content title tags then ([], str "进阶", none)
  else
    let td := classify title tags desc
    (td.1, td.2, infer_subject td.1 title tags desc)

/-! ### Helper lemmas for normalization idempotence -/

theorem pyLower_idem (c : Nat) : pyLower (pyLower c) = pyLower c := by
  unfold pyLower
  by_cases h : 65 ≤ c ∧ c ≤ 90
  · simp only [if_pos h]
    have h2 : ¬ (65 ≤ c + 32 ∧ c + 32 ≤ 90) := by omega
    simp only [if_neg h2]
  · simp only [if_neg h]

theorem lowerStr_idem (s : Str) : lowerStr (lowerStr s) = lowerStr s := by
  unfold lowerStr
  rw [List.map_map]
  apply List.map_congr_left
  intro c _
  exact pyLower_idem c

/-- Claim C10: the classifier's text normalization is idempotent — for
every string `s`, `_normalize_text(_normalize_text(s)) = _normalize_text(s)`
(lowercasing is idempotent and strips no further whitespace the second
time), so keyword matching over normalized text is insensitive to letter
case and to whitespace in the input. -/
theorem c10_normalize_text_idempotent (s : Str) :
    normalize_text (normalize_text s) = normalize_text s := by
  unfold normalize_text
  have hmap : lowerStr ((lowerStr s).filter (fun c => !isPySpace c))
      = (lowerStr s).filter (fun c => !isPySpace c) := by
    have hfix : ∀ x ∈ (lowerStr s).filter (fun c => !isPySpace c), pyLower x = x := by
      intro x hx
      have hx2 : x ∈ lowerStr s := List.mem_of_mem_filter hx
      obtain ⟨c, _, rfl⟩ := List.mem_map.mp hx2
      exact pyLower_idem c
    calc lowerStr ((lowerStr s).filter (fun c => !isPySpace c))
        = ((lowerStr s).filter (fun c => !isPySpace c)).map id :=
          List.map_congr_left hfix
      _ = (lowerStr s).filter (fun c => !isPySpace c) := List.map_id _
  rw [hmap]
  exact List.filter_eq_self.mpr (fun x hx => List.of_mem_filter (p := fun c => !isPySpace c) hx)

/-! ### Claim C3: the negative filter -/

/-- Claim C3 counterexample: the blocklisted term `游戏` occurs in the
combined input text (it is the description), and positive keyword `导数`
occurs in the title, yet `classify_with_subject` does NOT short-circuit:
it returns a non-empty topic list and an inferred subject, because
`_is_non_math_content` scans only `title + tags` and ignores the
description. -/
theorem c3_counterexample :
    containsSub (lowerStr (str "游戏"))
      (lowerStr (str "导数" ++ sp ++ [] ++ sp ++ str "游戏")) = true
    ∧ classify_with_subject (str "导数") [] (str "游戏")
        = ([str "导数与微分"], str "进阶", some (str "高等数学")) := by
  constructor
  · decide
  · decide

/-- Claim C3 (amended): the negative filter scans only the lowercased
concatenation of title and tags — not the description.  Whenever a
blocklisted term occurs there, `classify_with_subject` returns the empty
topic list, the default difficulty `进阶` and no subject, before any
positive matching. -/
theorem c3_blocklist_short_circuits (title tags desc : Str)
    (h : is_non_math_content title tags = true) :
    classify_with_subject title tags desc = ([], str "进阶", none) := by
  unfold classify_with_subject
  rw [h]
  rfl

/-- Witness for `c3_blocklist_short_circuits` at a concrete input whose
title contains the blocklisted term `游戏`. -/
theorem c3_blocklist_short_circuits_witness :
    classify_with_subject (str "游戏") [] (str "导数") = ([], str "进阶", none) :=
  c3_blocklist_short_circuits (str "游戏") [] (str "导数") (by decide)

/-! ## QualityScorer (src/core/quality_scorer.py) -/

/-- The `pubdate` value of a video dict, keeping the distinctions that
decide `_score_freshness`'s control flow:
  * `num t` — an `int`/`float` timestamp (`datetime.fromtimestamp` is
    applied to it, and raises when `t` is outside the supported
    `datetime` range);
  * `strBad` — a string rejected by `datetime.fromisoformat`
    (`ValueError`, caught → 50; the empty string is falsy and also
    yields 50);
  * `strNaive t` — an ISO string without a UTC offset, parsing to a
    naive `datetime` with epoch time `t`;
  * `strAware t` — an ISO string carrying `Z` or a `±HH:MM` offset
    (the code's `.replace("Z", "+00:00")` feeds exactly these), parsing
    to an offset-aware `datetime`;
  * `dt aware t` — a `datetime` object passed through directly, naive
    or aware. -/
inductive PubVal where
  | num (t : Int)
  | strBad
  | strNaive (t : Int)
  | strAware (t : Int)
  | dt (aware : Bool) (t : Int)
deriving DecidableEq

/-- The uncaught exceptions `_score_freshness` can raise: subtracting
an offset-aware `datetime` from the naive `datetime.now()`
(`TypeError`), and `datetime.fromtimestamp` on a timestamp outside the
supported `datetime` range (`OverflowError`/`OSError`/`ValueError`). -/
inductive PyExn where
  | typeError
  | rangeError
deriving DecidableEq

/-- Decidable equality on fallible results, for evaluating `score` at
concrete inputs. -/
instance exceptDecEq {ε α : Type} [DecidableEq ε] [DecidableEq α] :
    DecidableEq (Except ε α) := fun a b =>
  match a, b with
  | .ok x, .ok y =>
    if h : x = y then isTrue (by rw [h])
    else isFalse (by intro hc; cases hc; exact h rfl)
  | .error x, .error y =>
    if h : x = y then isTrue (by rw [h])
    else isFalse (by intro hc; cases hc; exact h rfl)
  | .ok _, .error _ => isFalse (by intro hc; cases hc)
  | .error _, .ok _ => isFalse (by intro hc; cases hc)

/-- Epoch seconds of `0001-01-01T00:00:00` UTC — `datetime.fromtimestamp`
raises below roughly this bound (the exact cutoff shifts by the local
UTC offset; the UTC bound is used as the model). -/
def MIN_DATETIME_TS : Int := -62135596800

/-- Epoch seconds of `9999-12-31T23:59:59` UTC — `datetime.fromtimestamp`
raises above roughly this bound. -/
def MAX_DATETIME_TS : Int := 253402300799

/-- A video dict as consumed by `QualityScorer.score`: each field may be
absent (Python `dict.get` with a default). -/
structure VideoDict where
  view_count : Option Int := none
  favorite_count : Option Int := none
  like_count : Option Int := none
  coin_count : Option Int := none
  duration : Option Int := none
  pubdate : Option PubVal := none
  up_name : Option Str := none
deriving DecidableEq

/-- The video dict with every field missing (`{}`). -/
def emptyVideo : VideoDict := {}

/-- `IDEAL_DURATION_MIN = 5 * 60`. -/
def IDEAL_DURATION_MIN : Int := 5 * 60

/-- `IDEAL_DURATION_MAX = 30 * 60`. -/
def IDEAL_DURATION_MAX : Int := 30 * 60

/-- `QualityScorer._score_engagement`: rates against views (floored at
1), each normalized and clamped at 100, blended 0.5/0.3/0.2. -/
def score_engagement (v : VideoDict) : ℚ :=
  let views : Int := max (v.view_count.getD 0) 1
  let favorites := v.favorite_count.getD 0
  let likes := v.like_count.getD 0
  let coins := v.coin_count.getD 0
  let favRate : ℚ := (favorites : ℚ) / (views : ℚ)
  let likeRate : ℚ := (likes : ℚ) / (views : ℚ)
  let coinRate : ℚ := (coins : ℚ) / (views : ℚ)
  let favScore := min 100 (favRate / (0.02 : ℚ) * 100)
  let likeScore := min 100 (likeRate / (0.05 : ℚ) * 100)
  let coinScore := min 100 (coinRate / (0.01 : ℚ) * 100)
  favScore * (0.5 : ℚ) + likeScore * (0.3 : ℚ) + coinScore * (0.2 : ℚ)

/-- `QualityScorer._score_duration`: piecewise step function of the
duration in seconds (Python `//` is floor division). -/
def score_duration (v : VideoDict) : ℚ :=
  let duration := v.duration.getD 0
  if duration < 60 then 20
  else if duration < 2 * 60 then 40
  else if duration < IDEAL_DURATION_MIN then 60
  else if duration ≤ IDEAL_DURATION_MAX then 100
  else if duration ≤ 60 * 60 then 80
  else ((max 50 (80 - Int.fdiv (duration - 60 * 60) (30 * 60) * 10) : Int) : ℚ)

/-- `(now - pub_dt).days`: Python `timedelta.days` floors. -/
def daysAgo (now pub : Int) : Int := Int.fdiv (now - pub) 86400

/-- The piecewise freshness table of `_score_freshness`. -/
def freshnessByDays (d : Int) : ℚ :=
  if d < 180 then 100
  else if d < 365 then 90
  else if d < 730 then 70
  else if d < 1095 then 50
  else 30

/-- `QualityScorer._score_freshness`: 50 when the publish date is
absent or falsy (timestamp 0, empty string) or fails to parse
(`ValueError` caught); otherwise the piecewise table over the age in
days.  The function RAISES (uncaught) when a numeric timestamp is
outside the `datetime` range, and when the parsed or passed-in
`datetime` is offset-aware — `datetime.now() - pub_dt` then throws
`TypeError`, which no handler catches. -/
def score_freshness (now : Int) (v : VideoDict) : Except PyExn ℚ :=
  match v.pubdate with
  | none => .ok 50
  | some pv =>
    match pv with
    | .num 0 => .ok 50
    | .num t =>
      if t < MIN_DATETIME_TS ∨ MAX_DATETIME_TS < t then .error .rangeError
      else .ok (freshnessByDays (daysAgo now t))
    | .strBad => .ok 50
    | .strNaive t => .ok (freshnessByDays (daysAgo now t))
    | .strAware _ => .error .typeError
    | .dt aware t =>
      if aware then .error .typeError
      else .ok (freshnessByDays (daysAgo now t))

/-- The condition `known_name in up_name or up_name in known_name` of
`_score_uploader`. -/
def uploader_matches (knownName upName : Str) : Bool :=
  containsSub knownName upName || containsSub upName knownName

/-- The loop of `QualityScorer._score_uploader`: first table entry whose
name matches (bidirectional substring test) wins; otherwise baseline 60. -/
def score_uploader_from : List (Str × ℚ) → Str → ℚ
  | [], _ => 60
  | (knownName, sc) :: rest, upName =>
    if uploader_matches knownName upName then sc
    else score_uploader_from rest upName

/-- `QualityScorer._score_uploader` (missing `up_name` defaults to ""). -/
def score_uploader (table : List (Str × ℚ)) (v : VideoDict) : ℚ :=
  score_uploader_from table (v.up_name.getD [])

/-- `QualityScorer._default_uploader_scores`, in dict insertion order. -/
def default_uploader_scores : List (Str × ℚ) :=
  [(str "宋浩老师官方", 95), (str "宋浩老师", 95), (str "张宇考研数学", 92),
   (str "汤家凤老师", 90), (str "武忠祥老师", 90), (str "武忠祥", 90),
   (str "李永乐老师", 88), (str "余丙森老师", 85), (str "3Blue1Brown", 98),
   (str "3Blue1Brown中国", 95), (str "妈咪说MommyTalk", 85)]

/-- Python `round(x, 2)` as round-half-to-even on hundredths. -/
def roundHalfEven (q : ℚ) : Int :=
  let f := ⌊q⌋
  if q - f < 1 / 2 then f
  else if 1 / 2 < q - f then f + 1
  else if f % 2 = 0 then f else f + 1

/-- `round(x, 2)`. -/
def round2 (x : ℚ) : ℚ := ((roundHalfEven (x * 100) : Int) : ℚ) / 100

/-- `QualityScorer.score`: weighted sum of the four sub-scores, clamped
to [0, 100] and rounded to two decimals.  An exception raised inside
`_score_freshness` propagates out of `score` (nothing catches it). -/
def score (table : List (Str × ℚ)) (now : Int) (v : VideoDict) : Except PyExn ℚ :=
  let engagement := score_engagement v
  let duration := score_duration v
  match score_freshness now v with
  | .error e => .error e
  | .ok freshness =>
    let uploader := score_uploader table v
    let total := engagement * (0.40 : ℚ) + duration * (0.20 : ℚ)
      + freshness * (0.20 : ℚ) + uploader * (0.20 : ℚ)
    .ok (round2 (min 100 (max 0 total)))

theorem roundHalfEven_bounds (q : ℚ) (h0 : 0 ≤ q) (h1 : q ≤ 10000) :
    0 ≤ roundHalfEven q ∧ roundHalfEven q ≤ 10000 := by
  have hf0 : 0 ≤ ⌊q⌋ := Int.floor_nonneg.mpr h0
  have hfu : ⌊q⌋ ≤ 10000 := by
    have h := Int.floor_le_floor h1
    simpa using h
  unfold roundHalfEven
  by_cases hlt : q - ⌊q⌋ < 1 / 2
  · simp only [if_pos hlt]
    exact ⟨hf0, hfu⟩
  · have hhalf : (1 : ℚ) / 2 ≤ q - ⌊q⌋ := le_of_not_lt hlt
    have hsucc : ⌊q⌋ + 1 ≤ 10000 := by
      have hq : (⌊q⌋ : ℚ) < 10000 := by linarith
      have : ⌊q⌋ < 10000 := by exact_mod_cast hq
      omega
    simp only [if_neg hlt]
    by_cases hgt : 1 / 2 < q - ⌊q⌋
    · simp only [if_pos hgt]
      exact ⟨by omega, hsucc⟩
    · simp only [if_neg hgt]
      by_cases hev : ⌊q⌋ % 2 = 0
      · simp only [if_pos hev]
        exact ⟨hf0, hfu⟩
      · simp only [if_neg hev]
        exact ⟨by omega, hsucc⟩

theorem round2_bounds (x : ℚ) (h0 : 0 ≤ x) (h1 : x ≤ 100) :
    0 ≤ round2 x ∧ round2 x ≤ 100 := by
  have hb := roundHalfEven_bounds (x * 100) (by linarith) (by linarith)
  unfold round2
  constructor
  · apply div_nonneg _ (by norm_num)
    exact_mod_cast hb.1
  · rw [div_le_iff₀ (by norm_num)]
    have : ((roundHalfEven (x * 100) : Int) : ℚ) ≤ 10000 := by exact_mod_cast hb.2
    linarith

/-- Claim C2: the claim is right about the intent but the code raises.
A video dict whose `pubdate` is the Z-suffixed ISO string
`"2024-01-01T00:00:00Z"` — a supported type the code itself enables via
`.replace("Z", "+00:00")` — parses to an offset-aware datetime and
`datetime.now() - pub_dt` throws an uncaught `TypeError`, so
`QualityScorer.score` does not return at all (first conjunct evaluates
the code at the failing input).  On every input on which `score` does
return, its value lies in [0, 100] (second conjunct). -/
theorem c2_score_raises_on_aware_pubdate :
    score default_uploader_scores 1700000000
        { emptyVideo with pubdate := some (PubVal.strAware 1704067200) }
      = Except.error PyExn.typeError
    ∧ (∀ (table : List (Str × ℚ)) (now : Int) (v : VideoDict) (q : ℚ),
        score table now v = Except.ok q → 0 ≤ q ∧ q ≤ 100) := by
  constructor
  · rfl
  · intro table now v q h
    unfold score at h
    cases hf : score_freshness now v with
    | error e =>
      rw [hf] at h
      cases h
    | ok fr =>
      rw [hf] at h
      have hq : round2 (min 100 (max 0 (score_engagement v * (0.40 : ℚ)
          + score_duration v * (0.20 : ℚ) + fr * (0.20 : ℚ)
          + score_uploader table v * (0.20 : ℚ)))) = q := Except.ok.inj h
      rw [← hq]
      apply round2_bounds
      · exact le_min (by norm_num) (le_max_left 0 _)
      · exact min_le_left _ _

theorem score_emptyVideo_eval :
    score [] 1700000000 emptyVideo = Except.ok (26 : ℚ) := by
  have he : score_engagement emptyVideo = 0 := by
    simp [score_engagement, emptyVideo]
  have hd : score_duration emptyVideo = 20 := by
    simp [score_duration, emptyVideo]
  have hu : score_uploader [] emptyVideo = 60 := by
    simp [score_uploader, score_uploader_from, emptyVideo]
  have hf : score_freshness 1700000000 emptyVideo = Except.ok 50 := rfl
  unfold score
  simp only [hf, he, hd, hu]
  norm_num [round2, roundHalfEven]

/-- Witness for `c2_score_raises_on_aware_pubdate`: the all-missing
video dict scores successfully (to 26) and the theorem bounds its
value. -/
theorem c2_score_raises_on_aware_pubdate_witness :
    score [] 1700000000 emptyVideo = Except.ok (26 : ℚ)
    ∧ (0 ≤ (26 : ℚ) ∧ (26 : ℚ) ≤ 100) :=
  ⟨score_emptyVideo_eval,
   c2_score_raises_on_aware_pubdate.2 [] 1700000000 emptyVideo 26 score_emptyVideo_eval⟩

/-! ### Claim C8: uploader reputation -/

/-- Claim C8 counterexample: a video with a missing uploader name does
NOT receive the baseline 60 — the empty name is a substring of every
curated entry (`up_name in known_name` holds), so the first entry
`宋浩老师官方` wins and the sub-score is its pre-assigned 95. -/
theorem c8_counterexample :
    score_uploader default_uploader_scores emptyVideo = 95
    ∧ ¬ score_uploader default_uploader_scores emptyVideo = 60 := by
  constructor
  · decide
  · decide

/-- Claim C8 (amended): the uploader sub-score is decided by a
bidirectional substring test of the uploader's name against the curated
table: if no entry matches, the result is exactly the baseline 60; if
some entry matches, the result is the pre-assigned score of a matching
entry (the first one in table order).  A missing or empty uploader name
matches every entry's test (the empty string is a substring of every
entry), so with the default table it receives the first entry's score
95, never the baseline. -/
theorem c8_uploader_score_resolution :
    (∀ (table : List (Str × ℚ)) (upName : Str),
      (∀ e ∈ table, uploader_matches e.1 upName = false) →
      score_uploader_from table upName = 60)
    ∧ (∀ (table : List (Str × ℚ)) (upName : Str),
      (∃ e ∈ table, uploader_matches e.1 upName = true) →
      ∃ e ∈ table, uploader_matches e.1 upName = true
        ∧ score_uploader_from table upName = e.2)
    ∧ score_uploader default_uploader_scores emptyVideo = 95 := by
  refine ⟨?_, ?_, by decide⟩
  · intro table
    induction table with
    | nil => intro upName _; rfl
    | cons e rest ih =>
      obtain ⟨k, sc⟩ := e
      intro upName h
      have he : uploader_matches k upName = false := h (k, sc) (by simp)
      have hrest : ∀ x ∈ rest, uploader_matches x.1 upName = false := by
        intro x hx
        exact h x (by simp [hx])
      simp [score_uploader_from, he, ih upName hrest]
  · intro table
    induction table with
    | nil => intro upName h; simp at h
    | cons e rest ih =>
      obtain ⟨k, sc⟩ := e
      intro upName h
      by_cases he : uploader_matches k upName = true
      · exact ⟨(k, sc), by simp, he, by simp [score_uploader_from, he]⟩
      · have he2 : uploader_matches k upName = false := by
          simpa using he
        have hrest : ∃ x ∈ rest, uploader_matches x.1 upName = true := by
          obtain ⟨x, hx, hm⟩ := h
          rcases List.mem_cons.mp hx with rfl | hx2
          · exact absurd hm he
          · exact ⟨x, hx2, hm⟩
        obtain ⟨x, hx, hm, hs⟩ := ih upName hrest
        exact ⟨x, by simp [hx], hm, by simp [score_uploader_from, he2, hs]⟩

/-- Witness for `c8_uploader_score_resolution`: a fully unknown name gets
the baseline, and the name `宋浩老师` matches a concrete table entry and
receives its score. -/
theorem c8_uploader_score_resolution_witness :
    score_uploader_from [] (str "someone") = 60
    ∧ (∃ e ∈ default_uploader_scores,
        uploader_matches e.1 (str "宋浩老师官方") = true
        ∧ score_uploader_from default_uploader_scores (str "宋浩老师官方") = e.2) :=
  ⟨c8_uploader_score_resolution.1 [] (str "someone") (by simp),
   c8_uploader_score_resolution.2.1 default_uploader_scores (str "宋浩老师官方")
     ⟨(str "宋浩老师官方", 95), by decide, by decide⟩⟩

/-! ## RecommendEngine (src/core/recommend_engine.py) -/

/-- Python `str.strip()` (whitespace strip at both ends). -/
def pyStrip (s : Str) : Str :=
  ((s.dropWhile (fun c => isPySpace c)).reverse.dropWhile (fun c => isPySpace c)).reverse

/-- Python truthiness of an optional string argument (`if topic:` …). -/
def optTruthy : Option Str → Bool
  | none => false
  | some s => !s.isEmpty

/-- `COURSE_TOPICS`. -/
def COURSE_TOPICS : List (Str × List Str) :=
  [(str "高数", [str "极限与连续", str "导数与微分", str "积分", str "微分方程",
                 str "级数", str "多元函数"]),
   (str "线代", [str "行列式", str "矩阵", str "向量", str "线性方程组", str "特征值"]),
   (str "概率", [str "概率基础", str "随机变量", str "数理统计"])]

/-- `COURSE_ALIASES`. -/
def COURSE_ALIASES : List (Str × Str) :=
  [(str "高等数学", str "高数"), (str "线性代数", str "线代"),
   (str "概率论", str "概率"), (str "概率论与数理统计", str "概率")]

/-- `normalize_course`. -/
def normalize_course (value : Option Str) : Str :=
  let v := pyStrip (value.getD [])
  if v.isEmpty then []
  else
    match COURSE_ALIASES.find? (fun p => p.1 = v) with
    | some p => p.2
    | none => v

/-- `resolve_course_topics`. -/
def resolve_course_topics (course : Option Str) : List Str :=
  let c := normalize_course course
  if c.isEmpty then []
  else
    match COURSE_TOPICS.find? (fun p => p.1 = c) with
    | some p => p.2
    | none => []

/-- `RecommendStrategy`. -/
inductive RecommendStrategy where
  | hot
  | popular
  | latest
  | easy
  | medium
  | hard
deriving DecidableEq

/-- A row of the `videos` table (the columns the engine reads). -/
structure VideoRow where
  videoId : Option Str
  title : Option Str
  upName : Option Str
  viewCount : Int
  favoriteCount : Int
  pubdate : Int
deriving DecidableEq

/-- A row of the `video_enrichments` table (the columns the engine reads). -/
structure EnrichRow where
  subject : Option Str
  topics : Option Str
  difficulty : Option Str
  qualityScore : ℚ
  isRecommended : Bool
deriving DecidableEq

/-- A row of the outer join `Video ⟕ Enrichment` on the video id. -/
abbrev Row := VideoRow × Option EnrichRow

/-- SQL `column LIKE :pat` with NULL-as-false semantics. -/
def likeOpt (pat : Str) : Option Str → Bool
  | some s => containsSub pat s
  | none => false

/-- `preset_map.get(strategy)` of `_resolve_strategy_and_difficulty`. -/
def presetOf : RecommendStrategy → Option Str
  | .easy => some (str "入门")
  | .medium => some (str "进阶")
  | .hard => some (str "高阶")
  | _ => none

/-- `RecommendEngine._resolve_strategy_and_difficulty`: map
EASY/MEDIUM/HARD to (HOT, preset level) unless an explicit truthy
difficulty was supplied, in which case the explicit filter wins. -/
def resolve_strategy_and_difficulty (strategy : RecommendStrategy)
    (difficulty : Option Str) : RecommendStrategy × Option Str :=
  match presetOf strategy with
  | none => (strategy, difficulty)
  | some preset =>
    if optTruthy difficulty then (.hot, difficulty)
    else (.hot, some preset)

/-- `RecommendEngine._build_base_query` (enrichment model available):
only-recommended filter, the three-subject taxonomy filter, and the
valid-video filter. -/
def build_base_query (onlyRecommended : Bool) (rows : List Row) : List Row :=
  let q1 :=
    if onlyRecommended then
      rows.filter (fun r =>
        match r.2 with
        | some en => en.isRecommended
        | none => false)
    else rows
  let q2 := q1.filter (fun r =>
    match r.2 with
    | some en =>
      match en.subject with
      | some s => decide (s ∈ [str "高等数学", str "线性代数", str "概率论与数理统计"])
      | none => false
    | none => false)
  q2.filter (fun r =>
    r.1.videoId.isSome && r.1.title.isSome && decide (0 < r.1.viewCount))

/-- `RecommendEngine._apply_filters`. -/
def apply_filters (rows : List Row)
    (course topic difficulty upName searchQuery : Option Str) : List Row :=
  let q1 :=
    if optTruthy topic then
      rows.filter (fun r =>
        match r.2 with
        | some en => likeOpt (topic.getD []) en.topics
        | none => false)
    else
      let allowedTopics := resolve_course_topics course
      if !allowedTopics.isEmpty then
        rows.filter (fun r =>
          match r.2 with
          | some en => allowedTopics.any (fun t => likeOpt t en.topics)
          | none => false)
      else rows
  let q2 :=
    if optTruthy difficulty then
      q1.filter (fun r =>
        match r.2 with
        | some en => en.difficulty = some (difficulty.getD [])
        | none => false)
    else q1
  let q3 :=
    if optTruthy upName then
      q2.filter (fun r => likeOpt (upName.getD []) r.1.upName)
    else q2
  if optTruthy searchQuery then
    q3.filter (fun r => likeOpt (searchQuery.getD []) r.1.title)
  else q3

/-- Descending insertion step for the ORDER BY … DESC model. -/
def insertDescBy {α : Type} (key : α → ℚ) (a : α) : List α → List α
  | [] => [a]
  | b :: rest => if key b < key a then a :: b :: rest else b :: insertDescBy key a rest

/-- Deterministic descending sort, modelling `ORDER BY key DESC`. -/
def sortDescBy {α : Type} (key : α → ℚ) : List α → List α
  | [] => []
  | a :: rest => insertDescBy key a (sortDescBy key rest)

/-- HOT ordering key: `desc(Enrichment.质量分)`. -/
def hotKey (r : Row) : ℚ :=
  match r.2 with
  | some en => en.qualityScore
  | none => 0

/-- POPULAR ordering key: `desc(收藏数 / greatest(播放量, 1))`. -/
def popularKey (r : Row) : ℚ :=
  (r.1.favoriteCount : ℚ) / ((max r.1.viewCount 1 : Int) : ℚ)

/-- LATEST ordering key: `desc(发布时间)`. -/
def latestKey (r : Row) : ℚ := (r.1.pubdate : ℚ)

/-- `RecommendEngine._apply_strategy`. -/
def apply_strategy (strategy : RecommendStrategy) (rows : List Row) : List Row :=
  match strategy with
  | .hot => sortDescBy hotKey rows
  | .popular => sortDescBy popularKey rows
  | .latest => sortDescBy latestKey rows
  | .easy | .medium | .hard => sortDescBy hotKey rows

/-- The paginated result envelope of `RecommendEngine.recommend`. -/
structure RecommendResult where
  items : List Row
  total : Nat
  page : Nat
  pageSize : Nat
  pages : Nat
deriving DecidableEq

/-- `RecommendEngine.recommend`: resolve presets, filter, order,
paginate. -/
def recommend (strategy : RecommendStrategy)
    (course topic difficulty upName searchQuery : Option Str)
    (page pageSize : Nat) (onlyRecommended : Bool)
    (rows : List Row) : RecommendResult :=
  let base := build_base_query onlyRecommended rows
  let sd := resolve_strategy_and_difficulty strategy difficulty
  let filtered := apply_filters base course topic sd.2 upName searchQuery
  let ordered := apply_strategy sd.1 filtered
  let total := ordered.length
  let pages := (total + pageSize - 1) / pageSize
  let offset := (page - 1) * pageSize
  { items := (ordered.drop offset).take pageSize
    total := total
    page := page
    pageSize := pageSize
    pages := pages }

/-- Claim C1: (1) the EASY preset with no explicit difficulty is exactly
HOT filtered to difficulty `入门`; (2) with any preset strategy and a
truthy explicit difficulty, the call behaves exactly as HOT with that
explicit difficulty — the preset level is not applied as a filter, so
preset and explicit difficulty are never both applied. -/
theorem c1_preset_resolution (rows : List Row)
    (course topic upName searchQuery : Option Str)
    (page pageSize : Nat) (onlyRecommended : Bool) :
    recommend .easy course topic none upName searchQuery
        page pageSize onlyRecommended rows
      = recommend .hot course topic (some (str "入门")) upName searchQuery
          page pageSize onlyRecommended rows
    ∧ ∀ s : RecommendStrategy, presetOf s ≠ none → ∀ d : Str, d ≠ [] →
        recommend s course topic (some d) upName searchQuery
            page pageSize onlyRecommended rows
          = recommend .hot course topic (some d) upName searchQuery
              page pageSize onlyRecommended rows := by
  constructor
  · rfl
  · intro s hs d hd
    have hres : resolve_strategy_and_difficulty s (some d) = (.hot, some d) := by
      have hod : optTruthy (some d) = true := by
        unfold optTruthy
        simpa [List.isEmpty_iff] using hd
      cases s <;>
        simp_all [resolve_strategy_and_difficulty, presetOf]
    have hres2 : resolve_strategy_and_difficulty .hot (some d) = (.hot, some d) := rfl
    unfold recommend
    rw [hres, hres2]

/-- A small stored dataset for the witnesses. -/
def sampleRows : List Row :=
  [({ videoId := some (str "BV1aaa"), title := some (str "高数入门课"),
      upName := some (str "宋浩老师"), viewCount := 1000, favoriteCount := 50,
      pubdate := 1700000000 },
    some { subject := some (str "高等数学"), topics := some (str "导数与微分"),
           difficulty := some (str "入门"), qualityScore := 92,
           isRecommended := true }),
   ({ videoId := some (str "BV2bbb"), title := some (str "线代进阶"),
      upName := some (str "李永乐老师"), viewCount := 500, favoriteCount := 20,
      pubdate := 1690000000 },
    some { subject := some (str "线性代数"), topics := some (str "矩阵"),
           difficulty := some (str "进阶"), qualityScore := 80,
           isRecommended := true })]

/-- Witness for `c1_preset_resolution`: MEDIUM with explicit difficulty
`入门` equals HOT with difficulty `入门` on the sample dataset. -/
theorem c1_preset_resolution_witness :
    recommend .medium none none (some (str "入门")) none none 1 20 true sampleRows
      = recommend .hot none none (some (str "入门")) none none 1 20 true sampleRows :=
  (c1_preset_resolution sampleRows none none none none 1 20 true).2
    .medium (by decide) (str "入门") (by decide)

/-! ## SignedAPIClient (src/spider/bilibili_api.py) -/

/-- `mixin_key_enc_tab` — the fixed 64-entry permutation table. -/
def mixin_key_enc_tab : List Nat :=
  [46, 47, 18, 2, 53, 8, 23, 32,
   15, 50, 10, 31, 58, 3, 45, 35,
   27, 43, 5, 49, 33, 9, 42, 19,
   29, 28, 14, 39, 12, 38, 41, 13,
   37, 48, 7, 16, 24, 55, 40, 61,
   26, 17, 0, 1, 60, 51, 30, 4,
   22, 25, 54, 21, 56, 59, 6, 63,
   57, 62, 11, 36, 20, 34, 44, 52]

/-- `build_wbi_mixin_key`: concatenate the fragments (`None` → ""),
return "" when shorter than 64 characters, else permute through the
table and keep the first 32 characters. -/
def build_wbi_mixin_key (imgKey subKey : Option Str) : Str :=
  let s := imgKey.getD [] ++ subKey.getD []
  if s.length < 64 then []
  else (mixin_key_enc_tab.map (fun i => s.getD i 0)).take 32

/-- Claim C6: when the concatenation of the key fragments has length at
least 64, `build_wbi_mixin_key` returns exactly the first 32 characters
of the concatenation permuted through the fixed table (hence always
length 32); when it is shorter (including a missing fragment), it
returns the empty string and signing is disabled. -/
theorem c6_mixin_key (imgKey subKey : Option Str) :
    (64 ≤ (imgKey.getD [] ++ subKey.getD []).length →
      build_wbi_mixin_key imgKey subKey
        = (mixin_key_enc_tab.take 32).map
            (fun i => (imgKey.getD [] ++ subKey.getD []).getD i 0)
      ∧ (build_wbi_mixin_key imgKey subKey).length = 32)
    ∧ ((imgKey.getD [] ++ subKey.getD []).length < 64 →
      build_wbi_mixin_key imgKey subKey = []) := by
  constructor
  · intro h
    have hnot : ¬ (imgKey.getD [] ++ subKey.getD []).length < 64 := not_lt.mpr h
    refine ⟨?_, ?_⟩
    · unfold build_wbi_mixin_key
      rw [if_neg hnot, List.map_take]
    · unfold build_wbi_mixin_key
      rw [if_neg hnot]
      have h32 : (32 : Nat) ≤ mixin_key_enc_tab.length := by decide
      simp [List.length_take, List.length_map, h32]
  · intro h
    unfold build_wbi_mixin_key
    rw [if_pos h]

/-- Witness for `c6_mixin_key`: a 64-character concatenation yields a
32-character key; a short fragment pair yields the empty string. -/
theorem c6_mixin_key_witness :
    (build_wbi_mixin_key (some (List.replicate 32 97)) (some (List.replicate 32 98))).length = 32
    ∧ build_wbi_mixin_key (some (str "tooShort")) none = [] :=
  ⟨((c6_mixin_key (some (List.replicate 32 97)) (some (List.replicate 32 98))).1
      (by decide)).2,
   (c6_mixin_key (some (str "tooShort")) none).2 (by decide)⟩

/-! ### Claim C5: transport retry policy -/

/-- The `urllib3.util.retry.Retry` configuration mounted on the crawl
session. -/
structure RetryPolicy where
  total : Nat
  backoffFactor : ℚ
  statusForcelist : List Nat
deriving DecidableEq

/-- `Retry(total=3, backoff_factor=1, status_forcelist=[500, 502, 503, 504])`
from `crawl`. -/
def crawl_retry_policy : RetryPolicy :=
  { total := 3, backoffFactor := 1, statusForcelist := [500, 502, 503, 504] }

/-- Whether the mounted adapter retries a response with the given HTTP
status (urllib3 retries exactly the statuses in `status_forcelist`). -/
def retriesOnStatus (p : RetryPolicy) (status : Nat) : Bool :=
  decide (status ∈ p.statusForcelist)

/-- Claim C5 counterexample: HTTP 429 is NOT in the configured
`status_forcelist`, so a 429 response is not retried by the client —
the claim's status list {429, 500, 502, 503, 504} does not hold. -/
theorem c5_counterexample :
    retriesOnStatus crawl_retry_policy 429 = false
    ∧ ¬ (∀ s ∈ [429, 500, 502, 503, 504], retriesOnStatus crawl_retry_policy s = true) := by
  constructor
  · decide
  · decide

/-- Claim C5 (amended): the client retries exactly the HTTP statuses
500, 502, 503 and 504 (429 is absent), with exponential backoff factor 1
and a bounded attempt count of 3; no other status is retried at the
client layer. -/
theorem c5_retry_policy :
    (∀ s : Nat, retriesOnStatus crawl_retry_policy s = true ↔ s ∈ [500, 502, 503, 504])
    ∧ crawl_retry_policy.total = 3
    ∧ crawl_retry_policy.backoffFactor = 1 := by
  refine ⟨fun s => ?_, rfl, rfl⟩
  simp [retriesOnStatus, crawl_retry_policy]

/-! ### Claim C9: upsert column semantics (src/spider/bilibili_api.py, save_to_mysql) -/

/-- MySQL `NULLIF(a, b)`. -/
def sqlNULLIF (a b : Option Str) : Option Str :=
  match a, b with
  | none, _ => none
  | some x, some y => if x = y then none else some x
  | some x, none => some x

/-- MySQL two-argument `COALESCE(a, b)`. -/
def sqlCOALESCE (a b : Option Str) : Option Str :=
  match a with
  | some x => some x
  | none => b

/-- The per-column `ON DUPLICATE KEY UPDATE` rule of `save_to_mysql`:
`bili_tname` gets `COALESCE(NULLIF(VALUES(col), ''), col)`, every other
non-key column gets `VALUES(col)` (the incoming value). -/
def upsert_column (col : Str) (stored incoming : Option Str) : Option Str :=
  if col = str "bili_tname" then sqlCOALESCE (sqlNULLIF incoming (some [])) stored
  else incoming

/-- Claim C9 counterexample: with a non-empty `bili_tname` already
stored, a later upsert carrying a different non-empty value REPLACES it
— "first non-empty wins" does not hold. -/
theorem c9_counterexample :
    upsert_column (str "bili_tname") (some (str "校园学习")) (some (str "知识区"))
      = some (str "知识区")
    ∧ ¬ upsert_column (str "bili_tname") (some (str "校园学习")) (some (str "知识区"))
        = some (str "校园学习") := by
  constructor
  · decide
  · decide

/-- Claim C9 (amended): on a duplicate key every non-key column other
than `bili_tname` takes the incoming value; for `bili_tname` the stored
value is kept exactly when the incoming value is NULL or empty, and a
non-empty incoming value overwrites the stored one (last non-empty
wins, empty never clobbers). -/
theorem c9_upsert_semantics :
    (∀ (col : Str) (stored incoming : Option Str), col ≠ str "bili_tname" →
      upsert_column col stored incoming = incoming)
    ∧ (∀ stored : Option Str,
      upsert_column (str "bili_tname") stored none = stored
      ∧ upsert_column (str "bili_tname") stored (some []) = stored)
    ∧ (∀ (stored : Option Str) (incoming : Str), incoming ≠ [] →
      upsert_column (str "bili_tname") stored (some incoming) = some incoming) := by
  refine ⟨?_, ?_, ?_⟩
  · intro col stored incoming h
    simp [upsert_column, h]
  · intro stored
    constructor
    · simp [upsert_column, sqlNULLIF, sqlCOALESCE]
    · simp [upsert_column, sqlNULLIF, sqlCOALESCE]
  · intro stored incoming h
    simp [upsert_column, sqlNULLIF, sqlCOALESCE, h]

/-- Witness for `c9_upsert_semantics` at concrete columns and values. -/
theorem c9_upsert_semantics_witness :
    upsert_column (str "title") (some (str "old")) (some (str "new")) = some (str "new")
    ∧ upsert_column (str "bili_tname") (some (str "校园学习")) (some []) = some (str "校园学习")
    ∧ upsert_column (str "bili_tname") none (some (str "知识区")) = some (str "知识区") :=
  ⟨c9_upsert_semantics.1 (str "title") (some (str "old")) (some (str "new")) (by decide),
   (c9_upsert_semantics.2.1 (some (str "校园学习"))).2,
   c9_upsert_semantics.2.2 none (str "知识区") (by decide)⟩

/-! ## Skip-existing crawl mode (declared but not implemented in src) -/

/-- A network fetch issued by the orchestrator for a single video id. -/
inductive FetchEvent where
  | detail (bvid : Str)
  | tag (bvid : Str)
deriving DecidableEq

/-- Modelled from the spec: the skip-existing crawl mode.  The symbol
`get_existing_bvids` is declared in `src/spider/__init__.py` (`__all__`)
but its implementation — and the `skip_existing` branch of `crawl` — is
absent from the source tree.  Per the spec, in skip-existing mode the
orchestrator loads the set of already-known identifiers before the run
starts, issues no detail/tag fetch for any identifier in that set, and
additionally tracks identifiers newly seen within the run so duplicate
work is avoided across overlapping search pages.  This function
processes the items of one page: known or already-seen ids are skipped,
new ids trigger one detail fetch plus one tag fetch and join the seen
set. -/
def crawlSkipItems (existing : List Str) : List Str → List Str → List FetchEvent × List Str
  | [], seen => ([], seen)
  | bvid :: rest, seen =>
    if bvid ∈ existing ∨ bvid ∈ seen then crawlSkipItems existing rest seen
    else
      let r := crawlSkipItems existing rest (bvid :: seen)
      (.detail bvid :: .tag bvid :: r.1, r.2)

/-- Modelled from the spec: the page loop of the skip-existing crawl
run, threading the within-run seen set across pages. -/
def crawlSkipPages (existing : List Str) : List (List Str) → List Str → List FetchEvent
  | [], _ => []
  | page :: rest, seen =>
    let r := crawlSkipItems existing page seen
    r.1 ++ crawlSkipPages existing rest r.2

/-- Modelled from the spec: a whole skip-existing crawl run over the
given search pages, starting from an empty within-run seen set. -/
def crawlSkipRun (existing : List Str) (pages : List (List Str)) : List FetchEvent :=
  crawlSkipPages existing pages []

theorem crawlSkipItems_not_existing (existing : List Str) (bvid : Str)
    (hb : bvid ∈ existing) :
    ∀ (items seen : List Str),
      FetchEvent.detail bvid ∉ (crawlSkipItems existing items seen).1
      ∧ FetchEvent.tag bvid ∉ (crawlSkipItems existing items seen).1 := by
  intro items
  induction items with
  | nil =>
    intro seen
    simp [crawlSkipItems]
  | cons x rest ih =>
    intro seen
    by_cases hx : x ∈ existing ∨ x ∈ seen
    · simpa [crawlSkipItems, hx] using ih seen
    · have hxne : x ≠ bvid := by
        rintro rfl
        exact hx (Or.inl hb)
      have ihr := ih (x :: seen)
      constructor
      · simp only [crawlSkipItems, if_neg hx, List.mem_cons]
        push_neg
        refine ⟨?_, ?_, ihr.1⟩
        · intro hcon
          exact hxne (FetchEvent.detail.inj hcon).symm
        · intro hcon
          cases hcon
      · simp only [crawlSkipItems, if_neg hx, List.mem_cons]
        push_neg
        refine ⟨?_, ?_, ihr.2⟩
        · intro hcon
          cases hcon
        · intro hcon
          exact hxne (FetchEvent.tag.inj hcon).symm

theorem crawlSkipPages_not_existing (existing : List Str) (bvid : Str)
    (hb : bvid ∈ existing) :
    ∀ (pages : List (List Str)) (seen : List Str),
      FetchEvent.detail bvid ∉ crawlSkipPages existing pages seen
      ∧ FetchEvent.tag bvid ∉ crawlSkipPages existing pages seen := by
  intro pages
  induction pages with
  | nil =>
    intro seen
    simp [crawlSkipPages]
  | cons page rest ih =>
    intro seen
    have hitems := crawlSkipItems_not_existing existing bvid hb page seen
    have hrest := ih (crawlSkipItems existing page seen).2
    constructor
    · simp only [crawlSkipPages, List.mem_append]
      push_neg
      exact ⟨hitems.1, hrest.1⟩
    · simp only [crawlSkipPages, List.mem_append]
      push_neg
      exact ⟨hitems.2, hrest.2⟩

/-- Claim C4: in skip-existing mode, for every already-known identifier
set `existing` loaded at run start and every sequence of search pages,
no detail fetch and no tag fetch is ever issued for any identifier in
`existing` at any point of the run. -/
theorem c4_skip_existing_never_fetched (existing : List Str)
    (pages : List (List Str)) (bvid : Str) (hb : bvid ∈ existing) :
    FetchEvent.detail bvid ∉ crawlSkipRun existing pages
    ∧ FetchEvent.tag bvid ∉ crawlSkipRun existing pages :=
  crawlSkipPages_not_existing existing bvid hb pages []

/-- Witness for `c4_skip_existing_never_fetched`: a known id that
reappears on two overlapping pages is never fetched. -/
theorem c4_skip_existing_never_fetched_witness :
    FetchEvent.detail (str "BV1known") ∉
      crawlSkipRun [str "BV1known"] [[str "BV1known", str "BV2new"], [str "BV1known"]]
    ∧ FetchEvent.tag (str "BV1known") ∉
      crawlSkipRun [str "BV1known"] [[str "BV1known", str "BV2new"], [str "BV1known"]] :=
  c4_skip_existing_never_fetched [str "BV1known"]
    [[str "BV1known", str "BV2new"], [str "BV1known"]] (str "BV1known") (by decide)

/-! ## Crawl progress reporting (src/spider/bilibili_api.py, crawl) -/

/-- What one search-page attempt does: a non-empty result list (with
some number of per-item detail-failure callbacks), an empty result, or
an exception caught by the per-page handler. -/
inductive PageOutcome where
  | items (detailFails : Nat)
  | empty
  | exn
deriving DecidableEq

/-- One constructor per `progress_cb` call site in `crawl`. -/
inductive PKind where
  | wbiFail
  | taskStart
  | noMixin
  | noMore
  | detailFail
  | pageExn
  | pageDone
  | interrupted
deriving DecidableEq

/-- One progress callback invocation: `(stepsCompleted, totalSteps)`
plus which call site emitted it (the message is immaterial here). -/
structure PReport where
  kind : PKind
  done : Nat
  total : Nat
deriving DecidableEq

@[simp] theorem PReport_kind_mk (k : PKind) (d t : Nat) :
    (PReport.mk k d t).kind = k := rfl

@[simp] theorem PReport_done_mk (k : PKind) (d t : Nat) :
    (PReport.mk k d t).done = d := rfl

@[simp] theorem PReport_total_mk (k : PKind) (d t : Nat) :
    (PReport.mk k d t).total = t := rfl

/-- A crawl task: its search keyword (phase/subject do not influence
control flow). -/
structure CrawlTask where
  q : Str
deriving DecidableEq

/-- `MAX_PAGES = 15`. -/
def MAX_PAGES : Nat := 15

/-- The inner `for page in range(1, max_pages + 1)` loop of `crawl`:
stop-flag check, missing-mixin-key break, empty-result break,
per-page exception handling, and the counter increment plus
page-complete report after every completed page. -/
def pageLoop (mixinOk : Bool) (outcome : Nat → PageOutcome) (stopAtPage : Nat → Bool)
    (total : Nat) : List Nat → Nat → List PReport × Nat
  | [], done => ([], done)
  | p :: rest, done =>
    if stopAtPage p then ([], done)
    else if !mixinOk then ([⟨.noMixin, done, total⟩], done)
    else
      match outcome p with
      | .empty => ([⟨.noMore, done, total⟩], done)
      | .exn =>
        let r := pageLoop mixinOk outcome stopAtPage total rest (done + 1)
        (⟨.pageExn, done, total⟩ :: ⟨.pageDone, done + 1, total⟩ :: r.1, r.2)
      | .items k =>
        let r := pageLoop mixinOk outcome stopAtPage total rest (done + 1)
        (List.replicate k ⟨.detailFail, done, total⟩ ++ ⟨.pageDone, done + 1, total⟩ :: r.1, r.2)

/-- The outer `for config in task_list` loop of `crawl`: empty keywords
are skipped, each kept task emits a start report, runs the page loop,
and the shared stop flag is re-checked after each task. -/
def taskLoop (mixinOk : Bool) (env : Nat → Nat → PageOutcome) (stop : Nat → Nat → Bool)
    (stopAfter : Nat → Bool) (total mp : Nat) : List CrawlTask → Nat → Nat → List PReport
  | [], _, _ => []
  | t :: rest, ti, done =>
    if t.q.isEmpty then taskLoop mixinOk env stop stopAfter total mp rest (ti + 1) done
    else
      let pl := pageLoop mixinOk (env ti) (stop ti) total (List.range' 1 mp) done
      if stopAfter ti then
        ⟨.taskStart, done, total⟩ :: pl.1 ++ [⟨.interrupted, pl.2, total⟩]
      else
        ⟨.taskStart, done, total⟩ :: pl.1
          ++ taskLoop mixinOk env stop stopAfter total mp rest (ti + 1) pl.2

/-- The progress-report trace of one `crawl` run: the max-pages clamp
`max(1, min(max_pages, MAX_PAGES))`, `total_steps = max(1, len(tasks) * max_pages)`,
the `(0, 1)` report when WBI initialization failed, then the task loop. -/
def crawl_reports (tasks : List CrawlTask) (maxPagesIn : Nat) (mixinOk : Bool)
    (env : Nat → Nat → PageOutcome) (stop : Nat → Nat → Bool)
    (stopAfter : Nat → Bool) : List PReport :=
  if tasks.isEmpty then []
  else
    let mp := max 1 (min maxPagesIn MAX_PAGES)
    let totalSteps := max 1 (tasks.length * mp)
    (if !mixinOk then [⟨.wbiFail, 0, 1⟩] else [])
      ++ taskLoop mixinOk env stop stopAfter totalSteps mp tasks 0 0

/-- Claim C7 counterexample: a run with two tasks and `max_pages = 1`
whose WBI initialization failed emits a first report with
`totalSteps = 1`, not `len(tasks) × maxPages = 2` — so not every
progress report carries `totalSteps = len(tasks) × maxPages`. -/
theorem c7_counterexample :
    ∃ r ∈ crawl_reports [⟨str "高数"⟩, ⟨str "线代"⟩] 1 false
        (fun _ _ => PageOutcome.empty) (fun _ _ => false) (fun _ => false),
      r.total ≠ 2 * 1 := by
  decide

theorem pageLoop_inv (mixinOk : Bool) (outcome : Nat → PageOutcome)
    (stopAtPage : Nat → Bool) (total : Nat) :
    ∀ (pages : List Nat) (done : Nat),
      done ≤ (pageLoop mixinOk outcome stopAtPage total pages done).2
      ∧ (pageLoop mixinOk outcome stopAtPage total pages done).2 ≤ done + pages.length
      ∧ (∀ x ∈ (pageLoop mixinOk outcome stopAtPage total pages done).1,
          x.kind ≠ PKind.wbiFail ∧ x.total = total ∧ done ≤ x.done
            ∧ x.done ≤ (pageLoop mixinOk outcome stopAtPage total pages done).2)
      ∧ ((pageLoop mixinOk outcome stopAtPage total pages done).1.map PReport.done).Sorted (· ≤ ·)
      ∧ ((pageLoop mixinOk outcome stopAtPage total pages done).1.filter
            (fun x => decide (x.kind = PKind.pageDone))).map PReport.done
          = List.range' (done + 1)
              ((pageLoop mixinOk outcome stopAtPage total pages done).2 - done) := by
  intro pages
  induction pages with
  | nil =>
    intro done
    simp [pageLoop, List.Sorted]
  | cons p rest ih =>
    intro done
    by_cases hs : stopAtPage p = true
    · simp [pageLoop, hs, List.Sorted]
    · have hs2 : stopAtPage p = false := by simpa using hs
      by_cases hmix : mixinOk = true
      · cases hout : outcome p with
        | empty =>
          simp [pageLoop, hs2, hmix, hout, List.Sorted]
        | exn =>
          obtain ⟨ih1, ih2, ih3, ih4, ih5⟩ := ih (done + 1)
          have hred : pageLoop mixinOk outcome stopAtPage total (p :: rest) done
              = (⟨.pageExn, done, total⟩ :: ⟨.pageDone, done + 1, total⟩
                  :: (pageLoop mixinOk outcome stopAtPage total rest (done + 1)).1,
                 (pageLoop mixinOk outcome stopAtPage total rest (done + 1)).2) := by
            simp [pageLoop, hs2, hmix, hout]
          rw [hred]
          refine ⟨by omega, by simp only [List.length_cons]; omega, ?_, ?_, ?_⟩
          · intro x hx
            rcases List.mem_cons.mp hx with rfl | hx
            · exact ⟨by simp, rfl, le_refl _, by simp only [PReport_done_mk]; omega⟩
            rcases List.mem_cons.mp hx with rfl | hx
            · exact ⟨by simp, rfl, by simp only [PReport_done_mk]; omega,
                by simp only [PReport_done_mk]; omega⟩
            · obtain ⟨k1, k2, k3, k4⟩ := ih3 x hx
              exact ⟨k1, k2, by omega, k4⟩
          · simp only [List.map_cons, PReport_done_mk]
            rw [List.sorted_cons]
            constructor
            · intro b hb
              rcases List.mem_cons.mp hb with rfl | hb
              · omega
              · obtain ⟨x, hx, rfl⟩ := List.mem_map.mp hb
                have := (ih3 x hx).2.2.1
                omega
            rw [List.sorted_cons]
            constructor
            · intro b hb
              obtain ⟨x, hx, rfl⟩ := List.mem_map.mp hb
              exact (ih3 x hx).2.2.1
            · exact ih4
          · rw [List.filter_cons_of_neg (by simp), List.filter_cons_of_pos (by simp),
              List.map_cons, ih5]
            have harith : (pageLoop mixinOk outcome stopAtPage total rest (done + 1)).2 - done
                = ((pageLoop mixinOk outcome stopAtPage total rest (done + 1)).2 - (done + 1)) + 1 := by
              omega
            rw [harith, List.range'_succ]
        | items k =>
          obtain ⟨ih1, ih2, ih3, ih4, ih5⟩ := ih (done + 1)
          have hred : pageLoop mixinOk outcome stopAtPage total (p :: rest) done
              = (List.replicate k ⟨.detailFail, done, total⟩
                  ++ ⟨.pageDone, done + 1, total⟩
                  :: (pageLoop mixinOk outcome stopAtPage total rest (done + 1)).1,
                 (pageLoop mixinOk outcome stopAtPage total rest (done + 1)).2) := by
            simp [pageLoop, hs2, hmix, hout]
          rw [hred]
          refine ⟨by omega, by simp only [List.length_cons]; omega, ?_, ?_, ?_⟩
          · intro x hx
            rcases List.mem_append.mp hx with hx | hx
            · have hxe := List.eq_of_mem_replicate hx
              subst hxe
              exact ⟨by simp, rfl, le_refl _, by simp only [PReport_done_mk]; omega⟩
            rcases List.mem_cons.mp hx with rfl | hx
            · exact ⟨by simp, rfl, by simp only [PReport_done_mk]; omega,
                by simp only [PReport_done_mk]; omega⟩
            · obtain ⟨k1, k2, k3, k4⟩ := ih3 x hx
              exact ⟨k1, k2, by omega, k4⟩
          · simp only [List.map_append, List.map_replicate, List.map_cons, PReport_done_mk]
            rw [List.Sorted, List.pairwise_append]
            refine ⟨List.pairwise_replicate.mpr (Or.inr (le_refl done)), ?_, ?_⟩
            · rw [← List.Sorted, List.sorted_cons]
              constructor
              · intro b hb
                obtain ⟨x, hx, rfl⟩ := List.mem_map.mp hb
                exact (ih3 x hx).2.2.1
              · exact ih4
            · intro a ha b hb
              have hae := List.eq_of_mem_replicate ha
              subst hae
              rcases List.mem_cons.mp hb with rfl | hb
              · omega
              · obtain ⟨x, hx, rfl⟩ := List.mem_map.mp hb
                have := (ih3 x hx).2.2.1
                omega
          · rw [List.filter_append, List.filter_replicate_of_neg (by simp),
              List.filter_cons_of_pos (by simp), List.nil_append, List.map_cons, ih5]
            have harith : (pageLoop mixinOk outcome stopAtPage total rest (done + 1)).2 - done
                = ((pageLoop mixinOk outcome stopAtPage total rest (done + 1)).2 - (done + 1)) + 1 := by
              omega
            rw [harith, List.range'_succ]
      · have hmix2 : mixinOk = false := by simpa using hmix
        simp [pageLoop, hs2, hmix2, List.Sorted]

theorem taskLoop_inv (mixinOk : Bool) (env : Nat → Nat → PageOutcome)
    (stop : Nat → Nat → Bool) (stopAfter : Nat → Bool) (total mp : Nat) :
    ∀ (tasks : List CrawlTask) (ti done : Nat),
      done + tasks.length * mp ≤ total →
      (∀ x ∈ taskLoop mixinOk env stop stopAfter total mp tasks ti done,
          x.kind ≠ PKind.wbiFail ∧ x.total = total ∧ done ≤ x.done ∧ x.done ≤ total)
      ∧ ((taskLoop mixinOk env stop stopAfter total mp tasks ti done).map PReport.done).Sorted (· ≤ ·)
      ∧ ∃ k, done + k ≤ total
          ∧ ((taskLoop mixinOk env stop stopAfter total mp tasks ti done).filter
                (fun x => decide (x.kind = PKind.pageDone))).map PReport.done
            = List.range' (done + 1) k := by
  intro tasks
  induction tasks with
  | nil =>
    intro ti done h
    simp only [List.length_nil, Nat.zero_mul, Nat.add_zero] at h
    refine ⟨by simp [taskLoop], by simp [taskLoop, List.Sorted], 0, by omega, by simp [taskLoop]⟩
  | cons t rest ih =>
    intro ti done h
    rw [List.length_cons, Nat.succ_mul] at h
    by_cases hq : t.q.isEmpty = true
    · have h2 : done + rest.length * mp ≤ total := by omega
      have := ih (ti + 1) done h2
      simpa [taskLoop, hq] using this
    · have hq2 : t.q.isEmpty = false := by simpa using hq
      obtain ⟨p1, p2, p3, p4, p5⟩ :=
        pageLoop_inv mixinOk (env ti) (stop ti) total (List.range' 1 mp) done
      rw [show (List.range' 1 mp).length = mp from by simp] at p2
      by_cases hsa : stopAfter ti = true
      · simp only [taskLoop, hq2, hsa, Bool.false_eq_true, if_false, if_true]
        refine ⟨?_, ?_, (pageLoop mixinOk (env ti) (stop ti) total (List.range' 1 mp) done).2 - done,
          by omega, ?_⟩
        · intro x hx
          rcases List.mem_cons.mp hx with rfl | hx
          · exact ⟨by simp, rfl, le_refl _, by simp only [PReport_done_mk]; omega⟩
          rcases List.mem_append.mp hx with hx | hx
          · obtain ⟨k1, k2, k3, k4⟩ := p3 x hx
            exact ⟨k1, k2, k3, by omega⟩
          · have hxe := List.mem_singleton.mp hx
            subst hxe
            exact ⟨by simp, rfl, by simp only [PReport_done_mk]; omega,
              by simp only [PReport_done_mk]; omega⟩
        · simp only [List.cons_append, List.map_cons, List.map_append, List.map_nil,
            PReport_done_mk]
          rw [List.sorted_cons]
          refine ⟨?_, ?_⟩
          · intro b hb
            rcases List.mem_append.mp hb with hb | hb
            · obtain ⟨x, hx, rfl⟩ := List.mem_map.mp hb
              exact (p3 x hx).2.2.1
            · have hbe := List.mem_singleton.mp hb
              subst hbe
              omega
          · rw [List.Sorted, List.pairwise_append]
            refine ⟨p4, List.pairwise_singleton _ _, ?_⟩
            intro a ha b hb
            obtain ⟨x, hx, rfl⟩ := List.mem_map.mp ha
            have hbe := List.mem_singleton.mp hb
            subst hbe
            exact (p3 x hx).2.2.2
        · simp only [List.cons_append]
          rw [List.filter_cons_of_neg (by simp), List.filter_append,
            List.filter_cons_of_neg (by simp), List.filter_nil, List.append_nil, p5]
      · have hsa2 : stopAfter ti = false := by simpa using hsa
        have hbound2 : (pageLoop mixinOk (env ti) (stop ti) total (List.range' 1 mp) done).2
            + rest.length * mp ≤ total := by omega
        obtain ⟨q1, q2, q3⟩ := ih (ti + 1)
          (pageLoop mixinOk (env ti) (stop ti) total (List.range' 1 mp) done).2 hbound2
        obtain ⟨k2, hk2, hfk2⟩ := q3
        simp only [taskLoop, hq2, hsa2, Bool.false_eq_true, if_false]
        refine ⟨?_, ?_,
          ((pageLoop mixinOk (env ti) (stop ti) total (List.range' 1 mp) done).2 - done) + k2,
          by omega, ?_⟩
        · intro x hx
          rcases List.mem_cons.mp hx with rfl | hx
          · exact ⟨by simp, rfl, le_refl _, by simp only [PReport_done_mk]; omega⟩
          rcases List.mem_append.mp hx with hx | hx
          · obtain ⟨k1a, k1b, k1c, k1d⟩ := p3 x hx
            exact ⟨k1a, k1b, k1c, by omega⟩
          · obtain ⟨k1a, k1b, k1c, k1d⟩ := q1 x hx
            exact ⟨k1a, k1b, by omega, k1d⟩
        · simp only [List.cons_append, List.map_cons, List.map_append, PReport_done_mk]
          rw [List.sorted_cons]
          refine ⟨?_, ?_⟩
          · intro b hb
            rcases List.mem_append.mp hb with hb | hb
            · obtain ⟨x, hx, rfl⟩ := List.mem_map.mp hb
              exact (p3 x hx).2.2.1
            · obtain ⟨x, hx, rfl⟩ := List.mem_map.mp hb
              have := (q1 x hx).2.2.1
              omega
          · rw [List.Sorted, List.pairwise_append]
            refine ⟨p4, q2, ?_⟩
            intro a ha b hb
            obtain ⟨x, hx, rfl⟩ := List.mem_map.mp ha
            obtain ⟨y, hy, rfl⟩ := List.mem_map.mp hb
            have h1 := (p3 x hx).2.2.2
            have h2 := (q1 y hy).2.2.1
            omega
        · simp only [List.cons_append]
          rw [List.filter_cons_of_neg (by simp), List.filter_append, List.map_append, p5, hfk2]
          have hstart : (pageLoop mixinOk (env ti) (stop ti) total (List.range' 1 mp) done).2 + 1
              = (done + 1)
                + ((pageLoop mixinOk (env ti) (stop ti) total (List.range' 1 mp) done).2 - done) := by
            omega
          rw [hstart, List.range'_append_1]
          congr 1
          omega

/-- Claim C7 (amended): for every run with a non-empty task list, every
progress report other than the initial WBI-initialization-failure report
(which is emitted as `(0, 1, …)`) carries
`totalSteps = len(tasks) × maxPages` (with `maxPages` clamped to
`[1, MAX_PAGES]`); the reported `stepsCompleted` values form a
monotonically non-decreasing sequence, never exceed `totalSteps`, and
the page-completion reports count the processed pages `1, 2, …, k`
consecutively for some `k ≤ totalSteps`. -/
theorem c7_progress_report_invariants (tasks : List CrawlTask) (maxPagesIn : Nat)
    (mixinOk : Bool) (env : Nat → Nat → PageOutcome) (stop : Nat → Nat → Bool)
    (stopAfter : Nat → Bool) (hne : tasks ≠ []) :
    (∀ r ∈ crawl_reports tasks maxPagesIn mixinOk env stop stopAfter,
        r.kind ≠ PKind.wbiFail →
        r.total = tasks.length * max 1 (min maxPagesIn MAX_PAGES))
    ∧ (∀ r ∈ crawl_reports tasks maxPagesIn mixinOk env stop stopAfter,
        r.kind = PKind.wbiFail → r.done = 0 ∧ r.total = 1)
    ∧ ((crawl_reports tasks maxPagesIn mixinOk env stop stopAfter).map PReport.done).Sorted (· ≤ ·)
    ∧ (∀ r ∈ crawl_reports tasks maxPagesIn mixinOk env stop stopAfter,
        r.done ≤ tasks.length * max 1 (min maxPagesIn MAX_PAGES))
    ∧ ∃ k ≤ tasks.length * max 1 (min maxPagesIn MAX_PAGES),
        ((crawl_reports tasks maxPagesIn mixinOk env stop stopAfter).filter
            (fun x => decide (x.kind = PKind.pageDone))).map PReport.done
          = List.range' 1 k := by
  have hempty : tasks.isEmpty = false := by
    cases tasks with
    | nil => exact absurd rfl hne
    | cons a l => rfl
  have hlen : 1 ≤ tasks.length := List.length_pos.mpr hne
  have hmp : 1 ≤ max 1 (min maxPagesIn MAX_PAGES) := le_max_left 1 _
  have htot : max 1 (tasks.length * max 1 (min maxPagesIn MAX_PAGES))
      = tasks.length * max 1 (min maxPagesIn MAX_PAGES) := by
    have hone : 1 ≤ tasks.length * max 1 (min maxPagesIn MAX_PAGES) := by
      simpa using Nat.mul_le_mul hlen hmp
    exact Nat.max_eq_right hone
  have hcr : crawl_reports tasks maxPagesIn mixinOk env stop stopAfter
      = (if !mixinOk then [⟨PKind.wbiFail, 0, 1⟩] else [])
        ++ taskLoop mixinOk env stop stopAfter
            (tasks.length * max 1 (min maxPagesIn MAX_PAGES))
            (max 1 (min maxPagesIn MAX_PAGES)) tasks 0 0 := by
    simp only [crawl_reports, hempty, Bool.false_eq_true, if_false, htot]
  obtain ⟨t1, t2, t3⟩ := taskLoop_inv mixinOk env stop stopAfter
    (tasks.length * max 1 (min maxPagesIn MAX_PAGES))
    (max 1 (min maxPagesIn MAX_PAGES)) tasks 0 0 (by omega)
  obtain ⟨k, hk, hfk⟩ := t3
  rw [hcr]
  cases mixinOk with
  | true =>
    simp only [Bool.not_true, Bool.false_eq_true, if_false, List.nil_append]
    refine ⟨fun r hr _ => (t1 r hr).2.1, fun r hr hw => absurd hw (t1 r hr).1, t2,
      fun r hr => (t1 r hr).2.2.2, k, by omega, hfk⟩
  | false =>
    simp only [Bool.not_false, if_true, List.cons_append, List.nil_append]
    refine ⟨?_, ?_, ?_, ?_, k, by omega, ?_⟩
    · intro r hr hw
      rcases List.mem_cons.mp hr with rfl | hr
      · exact absurd rfl hw
      · exact (t1 r hr).2.1
    · intro r hr hw
      rcases List.mem_cons.mp hr with rfl | hr
      · exact ⟨rfl, rfl⟩
      · exact absurd hw (t1 r hr).1
    · simp only [List.map_cons, PReport_done_mk]
      rw [List.sorted_cons]
      refine ⟨?_, t2⟩
      intro b hb
      omega
    · intro r hr
      rcases List.mem_cons.mp hr with rfl | hr
      · simp
      · exact (t1 r hr).2.2.2
    · rw [List.filter_cons_of_neg (by simp)]
      exact hfk

/-- A concrete one-task environment for the C7 witness: page 1 returns
items, page 2 is empty. -/
def c7SampleEnv : Nat → Nat → PageOutcome :=
  fun _ p => if p = 1 then PageOutcome.items 0 else PageOutcome.empty

/-- Witness for `c7_progress_report_invariants` at a concrete run: the
page-completion report of the first page carries
`totalSteps = len(tasks) × maxPages`. -/
theorem c7_progress_report_invariants_witness :
    PReport.total ⟨PKind.pageDone, 1, 2⟩
      = ([(⟨str "高数"⟩ : CrawlTask)] : List CrawlTask).length
          * max 1 (min 2 MAX_PAGES) :=
  (c7_progress_report_invariants [⟨str "高数"⟩] 2 true c7SampleEnv
    (fun _ _ => false) (fun _ => false) (by decide)).1
    ⟨PKind.pageDone, 1, 2⟩ (by decide) (by decide)

end BilibiliMath
